import Mathlib

/-!
Verification development for the OCR pipeline of `ocr_python.py`.

The core of the repository is the `process_pdf` worker: it rasterizes a PDF
into page images with `pdftoppm`, lists the produced `.png` files, sorts them
by name, runs `tesseract` on each page in order, appends recognized text to
the output file, and finally cleans up the temporary image directory.

The shallow embedding below models one run of `process_pdf` as a pure
function from an environment (the behavior of the external tools, the
directory listing produced by rasterization, the cancellation flag as read
at each poll point, and the job options) to an observable trace (which tools
were invoked, the final content of the output file, the log and progress
event streams, whether the temporary work area still exists, and the job
outcome).

Poll points for the cancellation flag are numbered in execution order:
poll 0 is the check right after the `pdftoppm` call (line 391 of the
source), and poll `i` (for `i ≥ 1`) is the check at the top of the loop
iteration for page `i` (line 408).
-/

namespace OCRStudio

/-- Result of running one external command via `subprocess.run` with
captured output: exit status, captured stdout and captured stderr. -/
structure ToolResult where
  returncode : Int
  stdout : String
  stderr : String
deriving DecidableEq

/-- Severity levels of `log_message`. -/
inductive Level where
  | info
  | success
  | warning
  | error
deriving DecidableEq

/-- Terminal state of one job. -/
inductive Outcome where
  | completed
  | cancelled
  | fatalError (msg : String)
deriving DecidableEq

/-- The environment of one `process_pdf` run: everything the surrounding
world decides.  `cancel t` is the value the shared `processing_cancelled`
flag shows when the worker polls it for the `t`-th time. -/
structure Env where
  /-- exit status of the `pdftoppm` invocation -/
  rasterExit : Int
  /-- captured stderr of the `pdftoppm` invocation -/
  rasterStderr : String
  /-- `os.listdir(temp_dir)` after rasterization, in arbitrary order -/
  listing : List String
  /-- behavior of the `tesseract` invocation on each image file name -/
  ocr : String → ToolResult
  /-- the `cleanup_images` checkbox -/
  cleanupImages : Bool
  /-- whether `shutil.rmtree(temp_dir)` raises -/
  rmtreeFails : Bool
  /-- message of the exception raised by `shutil.rmtree`, when it fails -/
  rmtreeMsg : String
  /-- value of the shared cancellation flag at the `t`-th poll -/
  cancel : Nat → Bool
  /-- content of the file at `output_path` before the job (`none`: absent) -/
  priorOutput : Option String
  /-- the `output_path` the GUI passed in -/
  outputPath : String

/-- Observable trace of one `process_pdf` run. `outputFile` is the content
of the file at `output_path` at job end (`none` when it does not exist). -/
structure Trace where
  rasterInvoked : Bool
  /-- 1-based page numbers for which `tesseract` was invoked, in order -/
  ocrInvoked : List Nat
  outputFile : Option String
  logs : List (Level × String)
  /-- values set on `progress_var`, in order of emission -/
  progress : List ℚ
  workAreaExists : Bool
  outcome : Outcome

/-- Python's `str.endswith`: whether the character sequence of `post` is a
suffix of the character sequence of `s`. -/
def endswith (s post : String) : Bool :=
  post.data.isSuffixOf s.data

/-- Lexicographic comparison of character sequences by Unicode code point,
the order Python's `sorted` uses on strings. -/
def lexLe : List Char → List Char → Bool
  | [], _ => true
  | _ :: _, [] => false
  | a :: as, b :: bs =>
    if a.toNat < b.toNat then true
    else if b.toNat < a.toNat then false
    else lexLe as bs

/-- String comparison by code-point-lexicographic order on the character
sequences, as Python's `sorted` compares strings. -/
def strLe (a b : String) : Prop :=
  lexLe a.data b.data = true

instance : DecidableRel strLe := fun a b =>
  (inferInstance : Decidable (lexLe a.data b.data = true))

/-- The separator block written for a successfully recognized page:
`output_file.write(f"\n\n--- Page {page_num} ---\n")` followed by
`output_file.write(result.stdout)`. -/
def pageBlock (pageNum : Nat) (stdout : String) : String :=
  "\n\n--- Page " ++ toString pageNum ++ " ---\n" ++ stdout

/-- Concatenation of a list of strings, in order. -/
def concatAll : List String → String
  | [] => ""
  | s :: rest => s ++ concatAll rest

/-- Accumulated observables of the per-page loop. -/
structure LoopResult where
  invoked : List Nat
  text : String
  logs : List (Level × String)
  progress : List ℚ
  cancelledMid : Bool
deriving DecidableEq

/-- The per-page loop of `process_pdf` (source lines 407-427), processing
`files` starting at 0-based index `i` out of `total` pages.  Each iteration
first polls the cancellation flag (poll number `i + 1`), then emits the
progress value `20 + 70 * i / total`, then invokes `tesseract`; on exit
status zero it appends the page block to the output and logs Info, otherwise
it logs a Warning and appends nothing. -/
def pageLoop (env : Env) (total : Nat) : List String → Nat → LoopResult
  | [], _ => ⟨[], "", [], [], false⟩
  | f :: rest, i =>
    if env.cancel (i + 1) then ⟨[], "", [], [], true⟩
    else
      { invoked := (i + 1) :: (pageLoop env total rest (i + 1)).invoked
        text :=
          (if (env.ocr f).returncode = 0
           then pageBlock (i + 1) (env.ocr f).stdout else "") ++
            (pageLoop env total rest (i + 1)).text
        logs :=
          (if (env.ocr f).returncode = 0 then
            (Level.info, "Processed page " ++ toString (i + 1))
          else
            (Level.warning,
              "OCR failed for page " ++ toString (i + 1) ++ ": " ++
                (env.ocr f).stderr))
            :: (pageLoop env total rest (i + 1)).logs
        progress :=
          (20 + 70 * (i : ℚ) / (total : ℚ)) ::
            (pageLoop env total rest (i + 1)).progress
        cancelledMid := (pageLoop env total rest (i + 1)).cancelledMid }

/-- Number of loop iterations that run to completion when the loop still has
`len` files to process and the next page has 0-based index `i`: iterations
stop at the first poll (poll number `i + 1` for page `i + 1`) at which the
cancellation flag reads true.  This depends only on the number of remaining
files, not on their names. -/
def processedCount (env : Env) : Nat → Nat → Nat
  | 0, _ => 0
  | len + 1, i =>
    if env.cancel (i + 1) then 0 else processedCount env len (i + 1) + 1

/-- `sorted([f for f in os.listdir(temp_dir) if f.endswith('.png')])`
(source line 395): the image files the loop will process, in ascending
lexicographic order of their names. -/
def image_files (env : Env) : List String :=
  List.insertionSort strLe
    (env.listing.filter (fun f => endswith f ".png"))

/-- The `log_message` emitted at source line 378. -/
def startLog : Level × String := (Level.info, "Starting OCR processing...")

/-- The `log_message` emitted at source line 401. -/
def generatedLog (total : Nat) : Level × String :=
  (Level.success, "Generated " ++ toString total ++ " images from PDF")

/-- What happens after the per-page loop finishes with result `lr` (source
lines 429-449): if the loop returned early because the cancellation flag was
observed, the worker just returns, leaving the work area and the
already-written output in place; otherwise, when `cleanup_images` is set,
progress 95 is emitted and `shutil.rmtree` deletes the work area — a
deletion failure propagates to the job-level `except` handler (line 451),
which logs it as an Error and ends the job without the completion steps;
finally progress 100 and the two Success logs are emitted. -/
def afterLoop (env : Env) (total_pages : Nat) (lr : LoopResult) : Trace :=
  if lr.cancelledMid then
    { rasterInvoked := true
      ocrInvoked := lr.invoked
      outputFile := some lr.text
      logs := startLog :: generatedLog total_pages :: lr.logs
      progress := 10 :: lr.progress
      workAreaExists := true
      outcome := Outcome.cancelled }
  else if env.cleanupImages then
    if env.rmtreeFails then
      { rasterInvoked := true
        ocrInvoked := lr.invoked
        outputFile := some lr.text
        logs := startLog :: generatedLog total_pages :: lr.logs ++
          [(Level.error, "Error: " ++ env.rmtreeMsg)]
        progress := 10 :: lr.progress ++ [95]
        workAreaExists := true
        outcome := Outcome.fatalError env.rmtreeMsg }
    else
      { rasterInvoked := true
        ocrInvoked := lr.invoked
        outputFile := some lr.text
        logs := startLog :: generatedLog total_pages :: lr.logs ++
          [(Level.info, "Temporary files cleaned up"),
           (Level.success, "OCR processing completed successfully!"),
           (Level.success, "Output saved to: " ++ env.outputPath)]
        progress := 10 :: lr.progress ++ [95, 100]
        workAreaExists := false
        outcome := Outcome.completed }
  else
    { rasterInvoked := true
      ocrInvoked := lr.invoked
      outputFile := some lr.text
      logs := startLog :: generatedLog total_pages :: lr.logs ++
        [(Level.success, "OCR processing completed successfully!"),
         (Level.success, "Output saved to: " ++ env.outputPath)]
      progress := 10 :: lr.progress ++ [100]
      workAreaExists := true
      outcome := Outcome.completed }

/-- One run of `process_pdf` (source lines 368-458) as a function from
environment to observable trace.  Branches, in source order: the
`pdftoppm` failure raise (line 388), the post-rasterization cancellation
check (line 391), the empty-page-list raise (line 398), the per-page loop
(lines 406-427), then cleanup and completion via `afterLoop`. -/
def process_pdf (env : Env) : Trace :=
  if env.rasterExit ≠ 0 then
    { rasterInvoked := true
      ocrInvoked := []
      outputFile := env.priorOutput
      logs := [startLog,
        (Level.error, "Error: PDF conversion failed: " ++ env.rasterStderr)]
      progress := [10]
      workAreaExists := true
      outcome := Outcome.fatalError
        ("PDF conversion failed: " ++ env.rasterStderr) }
  else if env.cancel 0 then
    { rasterInvoked := true
      ocrInvoked := []
      outputFile := env.priorOutput
      logs := [startLog]
      progress := [10]
      workAreaExists := true
      outcome := Outcome.cancelled }
  else
    let files := image_files env
    let total_pages := files.length
    if total_pages = 0 then
      { rasterInvoked := true
        ocrInvoked := []
        outputFile := env.priorOutput
        logs := [startLog,
          (Level.error, "Error: No images generated from PDF")]
        progress := [10]
        workAreaExists := true
        outcome := Outcome.fatalError "No images generated from PDF" }
    else
      afterLoop env total_pages (pageLoop env total_pages files 0)

/-- A sample environment: four directory entries of which three are page
images, listed out of order, every page recognized successfully. -/
def envA : Env where
  rasterExit := 0
  rasterStderr := ""
  listing := ["page-2.png", "page-1.png", "readme.txt", "page-3.png"]
  ocr := fun f => ⟨0, "text of " ++ f, ""⟩
  cleanupImages := true
  rmtreeFails := false
  rmtreeMsg := ""
  cancel := fun _ => false
  priorOutput := some "OLD CONTENT"
  outputPath := "out.txt"

/-- Like `envA` but OCR exits with status 1 on the second page. -/
def envPage2Fails : Env :=
  { envA with ocr := fun f =>
      if f = "page-2.png" then ⟨1, "", "boom"⟩
      else ⟨0, "text of " ++ f, ""⟩ }

/-- Like `envA` but the cancellation flag reads true from poll 2 on
(i.e. it is set while page 1 is being recognized). -/
def envCancelPage2 : Env :=
  { envA with cancel := fun t => decide (2 ≤ t) }

/-- Like `envA` but the cancellation flag reads true from poll 1 on
(i.e. it is set during rasterization, observed at the top of the loop). -/
def envCancelPage1 : Env :=
  { envA with cancel := fun t => decide (1 ≤ t) }

/-- Like `envA` but `shutil.rmtree` raises during cleanup. -/
def envRmtreeFails : Env :=
  { envA with rmtreeFails := true, rmtreeMsg := "disk error" }

/-- Like `envA` but the cancellation flag is already set at every poll. -/
def envCancelEarly : Env :=
  { envA with cancel := fun _ => true }

/-- Like `envA` but rasterization produced no `.png` file at all. -/
def envNoImages : Env :=
  { envA with listing := ["readme.txt"] }

/-- Like `envA` but OCR fails on every page. -/
def envAllFail : Env :=
  { envA with ocr := fun _ => ⟨1, "", "ocr error"⟩ }

theorem lexLe_total : ∀ a b : List Char, lexLe a b = true ∨ lexLe b a = true := by
  intro a
  induction a with
  | nil => intro b; left; rfl
  | cons x xs ih =>
    intro b
    cases b with
    | nil => right; rfl
    | cons y ys =>
      by_cases h1 : x.toNat < y.toNat
      · left; simp [lexLe, h1]
      · by_cases h2 : y.toNat < x.toNat
        · right; simp [lexLe, h2]
        · rcases ih ys with h | h
          · left; simp [lexLe, h1, h2, h]
          · right; simp [lexLe, h1, h2, h]

theorem lexLe_trans :
    ∀ a b c : List Char,
      lexLe a b = true → lexLe b c = true → lexLe a c = true := by
  intro a
  induction a with
  | nil => intro b c _ _; rfl
  | cons x xs ih =>
    intro b c hab hbc
    cases b with
    | nil => simp [lexLe] at hab
    | cons y ys =>
      cases c with
      | nil => simp [lexLe] at hbc
      | cons z zs =>
        simp only [lexLe] at hab hbc ⊢
        rcases Nat.lt_trichotomy x.toNat y.toNat with h1 | h1 | h1
        · rcases Nat.lt_trichotomy y.toNat z.toNat with h2 | h2 | h2
          · simp [show x.toNat < z.toNat from by omega]
          · simp [show x.toNat < z.toNat from by omega]
          · simp [show ¬y.toNat < z.toNat from by omega, h2] at hbc
        · rcases Nat.lt_trichotomy y.toNat z.toNat with h2 | h2 | h2
          · simp [show x.toNat < z.toNat from by omega]
          · simp only [show ¬x.toNat < y.toNat from by omega,
              show ¬y.toNat < x.toNat from by omega, if_false] at hab
            simp only [show ¬y.toNat < z.toNat from by omega,
              show ¬z.toNat < y.toNat from by omega, if_false] at hbc
            simp only [show ¬x.toNat < z.toNat from by omega,
              show ¬z.toNat < x.toNat from by omega, if_false]
            exact ih ys zs hab hbc
          · simp [show ¬y.toNat < z.toNat from by omega, h2] at hbc
        · simp [show ¬x.toNat < y.toNat from by omega, h1] at hab

instance : IsTotal String strLe :=
  ⟨fun a b => lexLe_total a.data b.data⟩

instance : IsTrans String strLe :=
  ⟨fun a b c => lexLe_trans a.data b.data c.data⟩

/-- The sorted image listing is sorted w.r.t. code-point-lexicographic
order. -/
theorem image_files_sorted (env : Env) : List.Sorted strLe (image_files env) :=
  List.sorted_insertionSort strLe _

/-- Sorting only permutes: the image listing has as many entries as there
are names ending in `.png` in the work area. -/
theorem image_files_length (env : Env) :
    (image_files env).length =
      (env.listing.filter (fun f => endswith f ".png")).length :=
  List.length_insertionSort strLe _

theorem range_succ_map_shift {α : Type} (g : Nat → α) (m : Nat) :
    (List.range (m + 1)).map g = g 0 :: (List.range m).map (fun j => g (j + 1)) := by
  rw [List.range_succ_eq_map, List.map_cons, List.map_map]
  rfl

theorem processedCount_le (env : Env) : ∀ len i, processedCount env len i ≤ len := by
  intro len
  induction len with
  | zero => intro i; exact Nat.le_refl 0
  | succ n ih =>
    intro i
    unfold processedCount
    split
    · omega
    · have := ih (i + 1); omega

theorem processedCount_succ_of_cancel (env : Env) (len i : Nat)
    (hc : env.cancel (i + 1) = true) :
    processedCount env (len + 1) i = 0 := by
  simp [processedCount, hc]

theorem processedCount_succ_of_not_cancel (env : Env) (len i : Nat)
    (hc : env.cancel (i + 1) = false) :
    processedCount env (len + 1) i = processedCount env len (i + 1) + 1 := by
  simp [processedCount, hc]

/-- Every poll before the stopping point read the flag as false. -/
theorem processedCount_poll (env : Env) :
    ∀ len i j, j < processedCount env len i → env.cancel (i + j + 1) = false := by
  intro len
  induction len with
  | zero => intro i j h; simp [processedCount] at h
  | succ n ih =>
    intro i j h
    cases hc : env.cancel (i + 1) with
    | true => rw [processedCount_succ_of_cancel env n i hc] at h; omega
    | false =>
      rw [processedCount_succ_of_not_cancel env n i hc] at h
      cases j with
      | zero => exact hc
      | succ j' =>
        have h2 : j' < processedCount env n (i + 1) := by omega
        have h3 := ih (i + 1) j' h2
        have heq : i + (j' + 1) + 1 = i + 1 + j' + 1 := by omega
        rw [heq]; exact h3

/-- When the loop stops early, the flag read true at the stopping poll. -/
theorem processedCount_stop (env : Env) :
    ∀ len i, processedCount env len i < len →
      env.cancel (i + processedCount env len i + 1) = true := by
  intro len
  induction len with
  | zero => intro i h; simp [processedCount] at h
  | succ n ih =>
    intro i h
    cases hc : env.cancel (i + 1) with
    | true => rw [processedCount_succ_of_cancel env n i hc]; exact hc
    | false =>
      rw [processedCount_succ_of_not_cancel env n i hc] at h ⊢
      have h2 : processedCount env n (i + 1) < n := by omega
      have h3 := ih (i + 1) h2
      have heq : i + (processedCount env n (i + 1) + 1) + 1 =
          i + 1 + processedCount env n (i + 1) + 1 := by omega
      rw [heq]; exact h3

theorem processedCount_of_no_cancel (env : Env)
    (hc : ∀ u, env.cancel u = false) :
    ∀ len i, processedCount env len i = len := by
  intro len
  induction len with
  | zero => intro i; rfl
  | succ n ih => intro i; simp [processedCount, hc, ih]

/-- The loop returns early exactly when it stops before exhausting the
files. -/
theorem pageLoop_cancelledMid (env : Env) (total : Nat) :
    ∀ (files : List String) (i : Nat),
      ((pageLoop env total files i).cancelledMid = true ↔
        processedCount env files.length i < files.length) := by
  intro files
  induction files with
  | nil => intro i; simp [pageLoop, processedCount]
  | cons f rest ih =>
    intro i
    cases hc : env.cancel (i + 1) with
    | true =>
      simp [pageLoop, hc, List.length_cons,
        processedCount_succ_of_cancel env rest.length i hc]
    | false =>
      simp only [pageLoop, hc, Bool.false_eq_true, if_false, List.length_cons,
        processedCount_succ_of_not_cancel env rest.length i hc]
      rw [ih (i + 1)]
      omega

/-- `tesseract` is invoked exactly for the 1-based pages
`i + 1, …, i + processedCount`, in order. -/
theorem pageLoop_invoked (env : Env) (total : Nat) :
    ∀ (files : List String) (i : Nat),
      (pageLoop env total files i).invoked =
        (List.range (processedCount env files.length i)).map
          (fun j => i + j + 1) := by
  intro files
  induction files with
  | nil => intro i; rfl
  | cons f rest ih =>
    intro i
    cases hc : env.cancel (i + 1) with
    | true =>
      simp [pageLoop, hc, List.length_cons,
        processedCount_succ_of_cancel env rest.length i hc]
    | false =>
      simp only [pageLoop, hc, Bool.false_eq_true, if_false, List.length_cons,
        processedCount_succ_of_not_cancel env rest.length i hc]
      rw [range_succ_map_shift, ih (i + 1)]
      refine congrArg₂ List.cons rfl ?_
      exact List.map_congr_left fun j _ => by omega

/-- The progress value emitted at the start of the page with 0-based index
`i + j` is `20 + 70 * (i + j) / total`. -/
theorem pageLoop_progress (env : Env) (total : Nat) :
    ∀ (files : List String) (i : Nat),
      (pageLoop env total files i).progress =
        (List.range (processedCount env files.length i)).map
          (fun (j : Nat) => (20 : ℚ) + 70 * ((i : ℚ) + (j : ℚ)) / (total : ℚ)) := by
  intro files
  induction files with
  | nil => intro i; rfl
  | cons f rest ih =>
    intro i
    cases hc : env.cancel (i + 1) with
    | true =>
      simp [pageLoop, hc, List.length_cons,
        processedCount_succ_of_cancel env rest.length i hc]
    | false =>
      simp only [pageLoop, hc, Bool.false_eq_true, if_false, List.length_cons,
        processedCount_succ_of_not_cancel env rest.length i hc]
      rw [range_succ_map_shift, ih (i + 1)]
      refine congrArg₂ List.cons (by push_cast; ring) ?_
      exact List.map_congr_left fun j _ => by push_cast; ring

/-- The text written to the output file is the concatenation, over the
processed pages in order, of the page block for each page whose OCR exit
status was zero, with failed pages contributing nothing. -/
theorem pageLoop_text (env : Env) (total : Nat) :
    ∀ (files : List String) (i : Nat),
      (pageLoop env total files i).text =
        concatAll ((List.range (processedCount env files.length i)).map
          (fun j =>
            if (env.ocr (files.getD j "")).returncode = 0
            then pageBlock (i + j + 1) ((env.ocr (files.getD j "")).stdout)
            else "")) := by
  intro files
  induction files with
  | nil => intro i; rfl
  | cons f rest ih =>
    intro i
    cases hc : env.cancel (i + 1) with
    | true =>
      simp [pageLoop, hc, List.length_cons, concatAll,
        processedCount_succ_of_cancel env rest.length i hc]
    | false =>
      simp only [pageLoop, hc, Bool.false_eq_true, if_false, List.length_cons,
        processedCount_succ_of_not_cancel env rest.length i hc]
      rw [range_succ_map_shift, concatAll, ih (i + 1)]
      refine congrArg₂ (· ++ ·) rfl (congrArg concatAll ?_)
      refine List.map_congr_left fun j _ => ?_
      have heq : i + 1 + j + 1 = i + (j + 1) + 1 := by omega
      simp [List.getD_cons_succ, heq]

/-- The per-page log entries, in order: Info for a recognized page, Warning
(carrying the captured stderr) for a failed page. -/
theorem pageLoop_logs (env : Env) (total : Nat) :
    ∀ (files : List String) (i : Nat),
      (pageLoop env total files i).logs =
        (List.range (processedCount env files.length i)).map
          (fun j =>
            if (env.ocr (files.getD j "")).returncode = 0
            then (Level.info, "Processed page " ++ toString (i + j + 1))
            else (Level.warning,
              "OCR failed for page " ++ toString (i + j + 1) ++ ": " ++
                (env.ocr (files.getD j "")).stderr)) := by
  intro files
  induction files with
  | nil => intro i; rfl
  | cons f rest ih =>
    intro i
    cases hc : env.cancel (i + 1) with
    | true =>
      simp [pageLoop, hc, List.length_cons,
        processedCount_succ_of_cancel env rest.length i hc]
    | false =>
      simp only [pageLoop, hc, Bool.false_eq_true, if_false, List.length_cons,
        processedCount_succ_of_not_cancel env rest.length i hc]
      rw [range_succ_map_shift, ih (i + 1)]
      refine congrArg₂ List.cons rfl ?_
      refine List.map_congr_left fun j _ => ?_
      have heq : i + 1 + j + 1 = i + (j + 1) + 1 := by omega
      simp [List.getD_cons_succ, heq]

/-- Whatever happens after the loop, the output file holds exactly the text
the loop wrote (the file was opened in `'w'` mode before the loop and closed
when the `with` block exits). -/
theorem afterLoop_outputFile (env : Env) (t : Nat) (lr : LoopResult) :
    (afterLoop env t lr).outputFile = some lr.text := by
  unfold afterLoop
  split
  · rfl
  · split
    · split
      · rfl
      · rfl
    · rfl

theorem afterLoop_ocrInvoked (env : Env) (t : Nat) (lr : LoopResult) :
    (afterLoop env t lr).ocrInvoked = lr.invoked := by
  unfold afterLoop
  split
  · rfl
  · split
    · split
      · rfl
      · rfl
    · rfl

theorem afterLoop_mem_logs (env : Env) (t : Nat) (lr : LoopResult)
    (x : Level × String) (hx : x ∈ lr.logs) :
    x ∈ (afterLoop env t lr).logs := by
  unfold afterLoop
  split
  · simp [hx]
  · split
    · split
      · simp [hx]
      · simp [hx]
    · simp [hx]

theorem afterLoop_cancelled_eq (env : Env) (t : Nat) (lr : LoopResult)
    (h : lr.cancelledMid = true) :
    afterLoop env t lr =
      { rasterInvoked := true
        ocrInvoked := lr.invoked
        outputFile := some lr.text
        logs := startLog :: generatedLog t :: lr.logs
        progress := 10 :: lr.progress
        workAreaExists := true
        outcome := Outcome.cancelled } := by
  unfold afterLoop
  rw [if_pos h]

theorem afterLoop_rmtree_eq (env : Env) (t : Nat) (lr : LoopResult)
    (h1 : lr.cancelledMid = false) (h2 : env.cleanupImages = true)
    (h3 : env.rmtreeFails = true) :
    afterLoop env t lr =
      { rasterInvoked := true
        ocrInvoked := lr.invoked
        outputFile := some lr.text
        logs := startLog :: generatedLog t :: lr.logs ++
          [(Level.error, "Error: " ++ env.rmtreeMsg)]
        progress := 10 :: lr.progress ++ [95]
        workAreaExists := true
        outcome := Outcome.fatalError env.rmtreeMsg } := by
  unfold afterLoop
  rw [if_neg (by simp [h1]), if_pos h2, if_pos h3]

theorem afterLoop_outcome_completed (env : Env) (t : Nat) (lr : LoopResult)
    (h1 : lr.cancelledMid = false) (h2 : env.rmtreeFails = false) :
    (afterLoop env t lr).outcome = Outcome.completed := by
  unfold afterLoop
  rw [if_neg (by simp [h1])]
  split
  · rw [if_neg (by simp [h2])]
  · rfl

/-- The job ends in the fatal branch of `process_pdf` when `pdftoppm`
returns a non-zero exit status. -/
theorem process_pdf_raster_failed (env : Env) (hr : env.rasterExit ≠ 0) :
    process_pdf env =
      { rasterInvoked := true
        ocrInvoked := []
        outputFile := env.priorOutput
        logs := [startLog,
          (Level.error, "Error: PDF conversion failed: " ++ env.rasterStderr)]
        progress := [10]
        workAreaExists := true
        outcome := Outcome.fatalError
          ("PDF conversion failed: " ++ env.rasterStderr) } := by
  unfold process_pdf
  rw [if_pos hr]

/-- The worker returns at the post-rasterization cancellation check. -/
theorem process_pdf_cancel0 (env : Env) (hr : env.rasterExit = 0)
    (h0 : env.cancel 0 = true) :
    process_pdf env =
      { rasterInvoked := true
        ocrInvoked := []
        outputFile := env.priorOutput
        logs := [startLog]
        progress := [10]
        workAreaExists := true
        outcome := Outcome.cancelled } := by
  unfold process_pdf
  rw [if_neg (by simp [hr]), if_pos h0]

/-- The `No images generated from PDF` raise. -/
theorem process_pdf_no_pages (env : Env) (hr : env.rasterExit = 0)
    (h0 : env.cancel 0 = false) (hemp : image_files env = []) :
    process_pdf env =
      { rasterInvoked := true
        ocrInvoked := []
        outputFile := env.priorOutput
        logs := [startLog,
          (Level.error, "Error: No images generated from PDF")]
        progress := [10]
        workAreaExists := true
        outcome := Outcome.fatalError "No images generated from PDF" } := by
  unfold process_pdf
  rw [if_neg (by simp [hr]), if_neg (by simp [h0])]
  simp [hemp]

/-- When rasterization succeeds, the flag is clear at the first poll and at
least one page image exists, the run is the per-page loop followed by
cleanup and completion. -/
theorem process_pdf_run (env : Env) (hr : env.rasterExit = 0)
    (h0 : env.cancel 0 = false) (hn : (image_files env).length ≠ 0) :
    process_pdf env =
      afterLoop env (image_files env).length
        (pageLoop env (image_files env).length (image_files env) 0) := by
  unfold process_pdf
  rw [if_neg (by simp [hr]), if_neg (by simp [h0]), if_neg hn]

theorem concatAll_of_all_empty :
    ∀ l : List String, (∀ s ∈ l, s = "") → concatAll l = "" := by
  intro l
  induction l with
  | nil => intro _; rfl
  | cons s rest ih =>
    intro h
    rw [concatAll, h s (List.mem_cons_self s rest),
      ih fun x hx => h x (List.mem_cons_of_mem s hx)]
    rfl

/-- Every per-page progress value lies in `[20, 90]`. -/
theorem page_progress_bounds (total i m : Nat) (htot : total ≠ 0)
    (him : i + m ≤ total) :
    ∀ p ∈ (List.range m).map
      (fun (j : Nat) => (20 : ℚ) + 70 * ((i : ℚ) + (j : ℚ)) / (total : ℚ)),
      20 ≤ p ∧ p ≤ 90 := by
  intro p hp
  simp only [List.mem_map, List.mem_range] at hp
  obtain ⟨j, hj, rfl⟩ := hp
  have h1 : (0 : ℚ) < (total : ℚ) := by
    exact_mod_cast Nat.pos_of_ne_zero htot
  have h2 : ((i : ℚ) + (j : ℚ)) ≤ (total : ℚ) := by
    exact_mod_cast (by omega : i + j ≤ total)
  have h3 : (0 : ℚ) ≤ (i : ℚ) + (j : ℚ) := by positivity
  constructor
  · have : (0 : ℚ) ≤ 70 * ((i : ℚ) + (j : ℚ)) / (total : ℚ) := by positivity
    linarith
  · have h4 : 70 * ((i : ℚ) + (j : ℚ)) / (total : ℚ) ≤ 70 := by
      rw [div_le_iff₀ h1]
      nlinarith
    linarith

/-- The per-page progress values increase along the loop. -/
theorem page_progress_chain (total i m : Nat) (htot : total ≠ 0) :
    List.Chain' (· ≤ ·) ((List.range m).map
      (fun (j : Nat) => (20 : ℚ) + 70 * ((i : ℚ) + (j : ℚ)) / (total : ℚ))) := by
  rw [List.chain'_map]
  cases m with
  | zero => simp
  | succ n =>
    rw [List.chain'_range_succ]
    intro k _
    have h1 : (0 : ℚ) ≤ (total : ℚ) := by positivity
    have h2 : (70 : ℚ) * ((i : ℚ) + (k : ℚ)) ≤ 70 * ((i : ℚ) + ((k : ℚ) + 1)) := by
      linarith
    have h3 := div_le_div_of_nonneg_right h2 h1
    have h4 : ((k + 1 : Nat) : ℚ) = (k : ℚ) + 1 := by push_cast; ring
    rw [h4]
    linarith

theorem chain'_le_append_one (l : List ℚ) (a : ℚ)
    (h : List.Chain' (· ≤ ·) l) (ha : ∀ x ∈ l, x ≤ a) :
    List.Chain' (· ≤ ·) (l ++ [a]) := by
  rw [List.chain'_append]
  refine ⟨h, List.chain'_singleton a, ?_⟩
  intro x hx y hy
  simp only [List.head?] at hy
  rw [Option.mem_def, Option.some_inj] at hy
  rw [← hy]
  exact ha x (List.mem_of_mem_getLast? hx)

example : image_files envA = ["page-1.png", "page-2.png", "page-3.png"] := by
  decide

example : (process_pdf envA).outputFile =
    some ("\n\n--- Page 1 ---\ntext of page-1.png" ++
      "\n\n--- Page 2 ---\ntext of page-2.png" ++
      "\n\n--- Page 3 ---\ntext of page-3.png") := by
  decide

example : (process_pdf envA).outcome = Outcome.completed := by decide

/-- C1: for every job where rasterization yields N ≥ 1 page images and the
OCR tool exits with status zero on every page, the final output file
consists, for each page i from 1 to N in ascending order, of the block
"\n\n--- Page i ---\n" followed by that page's captured stdout verbatim,
and contains nothing else. -/
theorem C1_full_success_output (env : Env)
    (hr : env.rasterExit = 0)
    (hc : ∀ u, env.cancel u = false)
    (hn : image_files env ≠ [])
    (hok : ∀ f ∈ image_files env, (env.ocr f).returncode = 0) :
    (process_pdf env).outputFile =
      some (concatAll ((List.range (image_files env).length).map
        (fun j => pageBlock (j + 1)
          ((env.ocr ((image_files env).getD j "")).stdout)))) := by
  have hlen : (image_files env).length ≠ 0 := by
    simpa [List.length_eq_zero] using hn
  rw [process_pdf_run env hr (hc 0) hlen, afterLoop_outputFile,
    pageLoop_text, processedCount_of_no_cancel env hc]
  refine congrArg some (congrArg concatAll ?_)
  refine List.map_congr_left fun j hj => ?_
  rw [List.mem_range] at hj
  have hmem : (image_files env).getD j "" ∈ image_files env := by
    rw [List.getD_eq_getElem _ _ hj]
    exact List.getElem_mem hj
  rw [if_pos (hok _ hmem)]
  have h01 : 0 + j + 1 = j + 1 := by omega
  rw [h01]

/-- C1 witness: the theorem applied to the concrete three-page environment
`envA`. -/
theorem C1_full_success_output_witness :
    envA.rasterExit = 0 ∧ (∀ u, envA.cancel u = false) ∧
    image_files envA ≠ [] ∧
    (∀ f ∈ image_files envA, (envA.ocr f).returncode = 0) ∧
    (process_pdf envA).outputFile =
      some (concatAll ((List.range (image_files envA).length).map
        (fun j => pageBlock (j + 1)
          ((envA.ocr ((image_files envA).getD j "")).stdout)))) :=
  ⟨rfl, fun _ => rfl, by decide, by decide,
    C1_full_success_output envA rfl (fun _ => rfl) (by decide) (by decide)⟩

/-- C8: for every job in which the rasterization tool exits with status
zero but the work area contains zero `.png` files, the job fails fatally
with the "No images generated from PDF" error before any OCR invocation
occurs (and the pre-existing file at the output path is left untouched). -/
theorem C8_no_pages_fatal (env : Env)
    (hr : env.rasterExit = 0)
    (h0 : env.cancel 0 = false)
    (hemp : env.listing.filter (fun f => endswith f ".png") = []) :
    (process_pdf env).outcome =
        Outcome.fatalError "No images generated from PDF" ∧
      (process_pdf env).ocrInvoked = [] ∧
      (process_pdf env).outputFile = env.priorOutput := by
  have him : image_files env = [] := by
    rw [image_files, hemp]
    rfl
  rw [process_pdf_no_pages env hr h0 him]
  exact ⟨rfl, rfl, rfl⟩

/-- C8 witness: the theorem applied to `envNoImages`, whose listing has no
`.png` entry. -/
theorem C8_no_pages_fatal_witness :
    envNoImages.rasterExit = 0 ∧ envNoImages.cancel 0 = false ∧
    envNoImages.listing.filter (fun f => endswith f ".png") = [] ∧
    ((process_pdf envNoImages).outcome =
        Outcome.fatalError "No images generated from PDF" ∧
      (process_pdf envNoImages).ocrInvoked = [] ∧
      (process_pdf envNoImages).outputFile = envNoImages.priorOutput) :=
  ⟨rfl, rfl, by decide, C8_no_pages_fatal envNoImages rfl rfl (by decide)⟩

/-- C10: only names ending in ".png" are counted and processed; the page
index attached to blocks and logs is the 1-based position of the file in
the sorted listing, so the emitted indices are always the dense sequence
1..N, whatever the listing order and whatever numbers the filenames
embed. -/
theorem C10_dense_indices (env : Env)
    (hr : env.rasterExit = 0)
    (hc : ∀ u, env.cancel u = false)
    (hn : env.listing.filter (fun f => endswith f ".png") ≠ []) :
    List.Sorted strLe (image_files env) ∧
      (process_pdf env).ocrInvoked =
        (List.range
            ((env.listing.filter (fun f => endswith f ".png")).length)).map
          (fun j => j + 1) := by
  have hlen : (image_files env).length ≠ 0 := by
    rw [image_files_length]
    simpa [List.length_eq_zero] using hn
  refine ⟨image_files_sorted env, ?_⟩
  rw [process_pdf_run env hr (hc 0) hlen, afterLoop_ocrInvoked,
    pageLoop_invoked, processedCount_of_no_cancel env hc,
    image_files_length]
  exact List.map_congr_left fun j _ => by omega

/-- C10 witness: in `envA` the listing is unsorted and contains a non-image
entry, yet the OCR invocations carry exactly the page numbers 1, 2, 3. -/
theorem C10_dense_indices_witness :
    envA.rasterExit = 0 ∧ (∀ u, envA.cancel u = false) ∧
    envA.listing.filter (fun f => endswith f ".png") ≠ [] ∧
    (List.Sorted strLe (image_files envA) ∧
      (process_pdf envA).ocrInvoked =
        (List.range
            ((envA.listing.filter (fun f => endswith f ".png")).length)).map
          (fun j => j + 1)) :=
  ⟨rfl, fun _ => rfl, by decide,
    C10_dense_indices envA rfl (fun _ => rfl) (by decide)⟩

/-- C7 counterexample: in `envCancelEarly` the cancellation flag is set
from the very start — in particular before the rasterization call — yet the
rasterizer is still invoked, because the code's first poll of the flag
(line 391) happens only after `subprocess.run(["pdftoppm", ...])` has
returned.  This refutes the claim that the flag is polled before the
rasterization call and that a flag set before it prevents the
invocation. -/
theorem C7_counterexample :
    (∀ u, envCancelEarly.cancel u = true) ∧
    envCancelEarly.rasterExit = 0 ∧
    (process_pdf envCancelEarly).rasterInvoked = true :=
  ⟨fun _ => rfl, rfl, by decide⟩

/-- C7 (amended): the flag is polled immediately after the rasterization
call and at the top of each per-page iteration; if the flag is already set
when rasterization succeeds, the rasterizer has still been invoked once,
but the job cancels at the first poll with no OCR invocation at all. -/
theorem C7_amended_poll_after_raster (env : Env)
    (hr : env.rasterExit = 0) (h0 : env.cancel 0 = true) :
    (process_pdf env).rasterInvoked = true ∧
      (process_pdf env).ocrInvoked = [] ∧
      (process_pdf env).outcome = Outcome.cancelled := by
  rw [process_pdf_cancel0 env hr h0]
  exact ⟨rfl, rfl, rfl⟩

/-- C7 witness: the amended theorem applied to `envCancelEarly`. -/
theorem C7_amended_poll_after_raster_witness :
    envCancelEarly.rasterExit = 0 ∧ envCancelEarly.cancel 0 = true ∧
    ((process_pdf envCancelEarly).rasterInvoked = true ∧
      (process_pdf envCancelEarly).ocrInvoked = [] ∧
      (process_pdf envCancelEarly).outcome = Outcome.cancelled) :=
  ⟨rfl, rfl, C7_amended_poll_after_raster envCancelEarly rfl rfl⟩

/-- C9: for every job that reaches the recognition phase, the output file
is opened in truncating write mode before any page is recognized, so the
file exists whatever the per-page results and prior content were; in
particular, if every page fails recognition, the output file exists at job
end and is empty. -/
theorem C9_output_truncated (env : Env)
    (hr : env.rasterExit = 0)
    (h0 : env.cancel 0 = false)
    (hn : image_files env ≠ []) :
    ((process_pdf env).outputFile).isSome = true ∧
      ((∀ f ∈ image_files env, (env.ocr f).returncode ≠ 0) →
        (process_pdf env).outputFile = some "") := by
  have hlen : (image_files env).length ≠ 0 := by
    simpa [List.length_eq_zero] using hn
  rw [process_pdf_run env hr h0 hlen, afterLoop_outputFile]
  refine ⟨rfl, fun hfail => ?_⟩
  rw [pageLoop_text]
  refine congrArg some (concatAll_of_all_empty _ ?_)
  intro s hs
  rcases List.mem_map.mp hs with ⟨j, hj, rfl⟩
  rw [List.mem_range] at hj
  have hjN : j < (image_files env).length :=
    lt_of_lt_of_le hj (processedCount_le env _ 0)
  have hmem : (image_files env).getD j "" ∈ image_files env := by
    rw [List.getD_eq_getElem _ _ hjN]
    exact List.getElem_mem hjN
  rw [if_neg (hfail _ hmem)]

/-- C9 witness: the theorem applied to `envAllFail`, where every page
fails and the output path held "OLD CONTENT" before the job: the file ends
up existing and empty. -/
theorem C9_output_truncated_witness :
    envAllFail.rasterExit = 0 ∧ envAllFail.cancel 0 = false ∧
    image_files envAllFail ≠ [] ∧
    (∀ f ∈ image_files envAllFail, (envAllFail.ocr f).returncode ≠ 0) ∧
    ((process_pdf envAllFail).outputFile).isSome = true ∧
    (process_pdf envAllFail).outputFile = some "" :=
  ⟨rfl, rfl, by decide, by decide,
    (C9_output_truncated envAllFail rfl rfl (by decide)).1,
    (C9_output_truncated envAllFail rfl rfl (by decide)).2 (by decide)⟩

/-- C2: for every job with N pages where OCR exits non-zero for exactly one
page k and zero for all others (and cleanup itself does not fail), the job
runs to completion, the output file contains exactly the N-1 blocks of the
other pages in order with nothing appended for page k, and a Warning log
referencing page k is emitted. -/
theorem C2_single_failure (env : Env) (k : Nat)
    (hr : env.rasterExit = 0)
    (hc : ∀ u, env.cancel u = false)
    (hrm : env.rmtreeFails = false)
    (hk1 : 1 ≤ k) (hk2 : k ≤ (image_files env).length)
    (hfail : (env.ocr ((image_files env).getD (k - 1) "")).returncode ≠ 0)
    (hok : ∀ j, j < (image_files env).length → j + 1 ≠ k →
      (env.ocr ((image_files env).getD j "")).returncode = 0) :
    (process_pdf env).outcome = Outcome.completed ∧
      (process_pdf env).outputFile =
        some (concatAll ((List.range (image_files env).length).map
          (fun j =>
            if j + 1 = k then ""
            else pageBlock (j + 1)
              ((env.ocr ((image_files env).getD j "")).stdout)))) ∧
      (Level.warning,
        "OCR failed for page " ++ toString k ++ ": " ++
          (env.ocr ((image_files env).getD (k - 1) "")).stderr) ∈
        (process_pdf env).logs := by
  have hlen : (image_files env).length ≠ 0 := by omega
  have hpc : processedCount env (image_files env).length 0 =
      (image_files env).length :=
    processedCount_of_no_cancel env hc _ _
  have hmid :
      (pageLoop env (image_files env).length (image_files env) 0).cancelledMid
        = false := by
    have h2 : ¬ ((pageLoop env (image_files env).length
        (image_files env) 0).cancelledMid = true) := by
      rw [pageLoop_cancelledMid, hpc]
      omega
    simpa using h2
  rw [process_pdf_run env hr (hc 0) hlen]
  refine ⟨afterLoop_outcome_completed env _ _ hmid hrm, ?_, ?_⟩
  · rw [afterLoop_outputFile, pageLoop_text, hpc]
    refine congrArg some (congrArg concatAll
      (List.map_congr_left fun j hj => ?_))
    rw [List.mem_range] at hj
    by_cases hjk : j + 1 = k
    · have hj' : j = k - 1 := by omega
      rw [if_pos hjk, hj', if_neg hfail]
    · rw [if_neg hjk, if_pos (hok j hj hjk)]
      have h01 : 0 + j + 1 = j + 1 := by omega
      rw [h01]
  · apply afterLoop_mem_logs
    rw [pageLoop_logs, hpc]
    refine List.mem_map.mpr ⟨k - 1, List.mem_range.mpr (by omega), ?_⟩
    rw [if_neg hfail]
    have h0k : 0 + (k - 1) + 1 = k := by omega
    rw [h0k]

/-- C2 witness: the theorem applied to `envPage2Fails` (three pages, page 2
fails) at k = 2. -/
theorem C2_single_failure_witness :
    envPage2Fails.rasterExit = 0 ∧ (∀ u, envPage2Fails.cancel u = false) ∧
    envPage2Fails.rmtreeFails = false ∧
    (envPage2Fails.ocr
      ((image_files envPage2Fails).getD 1 "")).returncode ≠ 0 ∧
    ((process_pdf envPage2Fails).outcome = Outcome.completed ∧
      (process_pdf envPage2Fails).outputFile =
        some (concatAll ((List.range (image_files envPage2Fails).length).map
          (fun j =>
            if j + 1 = 2 then ""
            else pageBlock (j + 1)
              ((envPage2Fails.ocr
                ((image_files envPage2Fails).getD j "")).stdout)))) ∧
      (Level.warning,
        "OCR failed for page " ++ toString 2 ++ ": " ++
          (envPage2Fails.ocr
            ((image_files envPage2Fails).getD (2 - 1) "")).stderr) ∈
        (process_pdf envPage2Fails).logs) :=
  ⟨rfl, fun _ => rfl, rfl, by decide,
    C2_single_failure envPage2Fails 2 rfl (fun _ => rfl) rfl
      (by decide) (by decide) (by decide) (by decide)⟩

/-- C3: if the cancellation flag is set at (or before) the per-page check
for page k, the OCR tool is never invoked for page k or any later page, the
job ends cancelled, and the output file contains exactly the blocks already
written for some prefix of the pages before k — nothing is rolled back. -/
theorem C3_cancel_before_page (env : Env) (k : Nat)
    (hr : env.rasterExit = 0)
    (h0 : env.cancel 0 = false)
    (hk : env.cancel k = true)
    (hk1 : 1 ≤ k) (hk2 : k ≤ (image_files env).length) :
    (process_pdf env).outcome = Outcome.cancelled ∧
      (∀ p ∈ (process_pdf env).ocrInvoked, p < k) ∧
      ∃ m, m < k ∧
        (process_pdf env).outputFile =
          some (concatAll ((List.range m).map
            (fun j =>
              if (env.ocr ((image_files env).getD j "")).returncode = 0
              then pageBlock (j + 1)
                ((env.ocr ((image_files env).getD j "")).stdout)
              else ""))) := by
  have hlen : (image_files env).length ≠ 0 := by omega
  have hpk : processedCount env (image_files env).length 0 < k := by
    by_contra hcon
    push_neg at hcon
    have hpoll := processedCount_poll env (image_files env).length 0
      (k - 1) (by omega)
    rw [show 0 + (k - 1) + 1 = k from by omega, hk] at hpoll
    exact Bool.noConfusion hpoll
  have hmid :
      (pageLoop env (image_files env).length (image_files env) 0).cancelledMid
        = true := by
    rw [pageLoop_cancelledMid]
    omega
  rw [process_pdf_run env hr h0 hlen, afterLoop_cancelled_eq env _ _ hmid]
  refine ⟨rfl, ?_, ?_⟩
  · intro p hp
    have hp' : p ∈
        (pageLoop env (image_files env).length (image_files env) 0).invoked :=
      hp
    rw [pageLoop_invoked] at hp'
    rcases List.mem_map.mp hp' with ⟨j, hj, rfl⟩
    rw [List.mem_range] at hj
    omega
  · refine ⟨processedCount env (image_files env).length 0, hpk, ?_⟩
    show some
      (pageLoop env (image_files env).length (image_files env) 0).text = _
    rw [pageLoop_text]
    refine congrArg some (congrArg concatAll
      (List.map_congr_left fun j hj => ?_))
    have h01 : 0 + j + 1 = j + 1 := by omega
    rw [h01]

/-- C3 witness: the theorem applied to `envCancelPage2` (flag set from poll
2 on) at k = 2: page 1 is recognized and kept, pages 2 and 3 are never
OCR'd. -/
theorem C3_cancel_before_page_witness :
    envCancelPage2.rasterExit = 0 ∧ envCancelPage2.cancel 0 = false ∧
    envCancelPage2.cancel 2 = true ∧ 2 ≤ (image_files envCancelPage2).length ∧
    ((process_pdf envCancelPage2).outcome = Outcome.cancelled ∧
      (∀ p ∈ (process_pdf envCancelPage2).ocrInvoked, p < 2) ∧
      ∃ m, m < 2 ∧
        (process_pdf envCancelPage2).outputFile =
          some (concatAll ((List.range m).map
            (fun j =>
              if (envCancelPage2.ocr
                  ((image_files envCancelPage2).getD j "")).returncode = 0
              then pageBlock (j + 1)
                ((envCancelPage2.ocr
                  ((image_files envCancelPage2).getD j "")).stdout)
              else "")))) :=
  ⟨rfl, rfl, rfl, by decide,
    C3_cancel_before_page envCancelPage2 2 rfl rfl rfl (by decide) (by decide)⟩

theorem pageLoop_not_cancelled_of_no_cancel (env : Env) (total : Nat)
    (files : List String) (i : Nat) (hc : ∀ u, env.cancel u = false) :
    (pageLoop env total files i).cancelledMid = false := by
  have h2 : ¬ ((pageLoop env total files i).cancelledMid = true) := by
    rw [pageLoop_cancelledMid, processedCount_of_no_cancel env hc]
    omega
  simpa using h2

theorem getD_range_map {α : Type} (g : Nat → α) (m j : Nat) (d : α)
    (hj : j < m) :
    ((List.range m).map g).getD j d = g j := by
  rw [List.getD_eq_getElem _ _ (by simpa using hj)]
  simp

/-- The progress value at stream position `i ≥ 1` (position 0 is the value
10 emitted before rasterization) is the loop's value for page `i`, whatever
the post-loop branch appended. -/
theorem afterLoop_progress_getD (env : Env) (t : Nat) (lr : LoopResult)
    (i : Nat) (hi1 : 1 ≤ i) (hlen : i - 1 < lr.progress.length) :
    (afterLoop env t lr).progress.getD i 0 = lr.progress.getD (i - 1) 0 := by
  have key : ∀ suf : List ℚ,
      ((10 : ℚ) :: (lr.progress ++ suf)).getD i 0 =
        lr.progress.getD (i - 1) 0 := by
    intro suf
    rw [show i = (i - 1) + 1 from by omega, List.getD_cons_succ]
    exact List.getD_append _ _ _ _ hlen
  unfold afterLoop
  split
  · have h := key []
    rw [List.append_nil] at h
    exact h
  · split
    · split
      · exact key [95]
      · exact key [95, 100]
    · exact key [100]

/-- Whatever the post-loop branch, the whole progress stream is
non-decreasing and bounded by 100, provided the loop part was a chain
within the band `[20, 90]`. -/
theorem afterLoop_progress_ok (env : Env) (t : Nat) (lr : LoopResult)
    (h1 : List.Chain' (· ≤ ·) lr.progress)
    (h2 : ∀ p ∈ lr.progress, 20 ≤ p ∧ p ≤ 90) :
    List.Chain' (· ≤ ·) (afterLoop env t lr).progress ∧
      ∀ p ∈ (afterLoop env t lr).progress, p ≤ 100 := by
  have base_chain : List.Chain' (· ≤ ·) ((10 : ℚ) :: lr.progress) := by
    rw [List.chain'_cons']
    refine ⟨?_, h1⟩
    intro y hy
    have hmem := List.mem_of_mem_head? hy
    linarith [(h2 y hmem).1]
  have base_le95 : ∀ p ∈ (10 : ℚ) :: lr.progress, p ≤ 95 := by
    intro p hp
    rcases List.mem_cons.mp hp with h | h
    · rw [h]; norm_num
    · linarith [(h2 p h).2]
  have step_chain : List.Chain' (· ≤ ·) (((10 : ℚ) :: lr.progress) ++ [95]) :=
    chain'_le_append_one _ _ base_chain base_le95
  have step_le : ∀ p ∈ ((10 : ℚ) :: lr.progress) ++ [95], p ≤ 100 := by
    intro p hp
    rcases List.mem_append.mp hp with h | h
    · linarith [base_le95 p h]
    · rw [List.mem_singleton] at h
      rw [h]; norm_num
  unfold afterLoop
  split
  · exact ⟨base_chain, fun p hp => by linarith [base_le95 p hp]⟩
  · split
    · split
      · refine ⟨step_chain, ?_⟩
        intro p hp
        exact step_le p hp
      · constructor
        · have h := chain'_le_append_one _ 100 step_chain step_le
          rw [List.append_assoc] at h
          exact h
        · intro p hp
          have hp' : p ∈ (((10 : ℚ) :: lr.progress) ++ [95]) ++ [100] := by
            rw [List.append_assoc]
            exact hp
          rcases List.mem_append.mp hp' with h | h
          · exact step_le p h
          · rw [List.mem_singleton] at h
            rw [h]
    · exact ⟨chain'_le_append_one _ _ base_chain
          (fun x hx => by linarith [base_le95 x hx]),
        fun p hp => by
          rcases List.mem_append.mp
            (hp : p ∈ ((10 : ℚ) :: lr.progress) ++ [100]) with h | h
          · linarith [base_le95 p h]
          · rw [List.mem_singleton] at h
            rw [h]⟩

/-- C5 counterexample: in `envCancelPage1` the cleanup flag is set and the
job ends Cancelled, yet the work area still exists — on cancellation the
worker returns before ever reaching the `shutil.rmtree` call, so a
cancelled job is never cleaned up.  This refutes the claim for the
Cancelled case. -/
theorem C5_counterexample :
    envCancelPage1.cleanupImages = true ∧
    (process_pdf envCancelPage1).outcome = Outcome.cancelled ∧
    (process_pdf envCancelPage1).workAreaExists = true :=
  ⟨rfl, by decide, by decide⟩

/-- C5 (amended): for jobs ending Completed, the work area is deleted
exactly when cleanup_flag is set; for jobs ending Cancelled the work area
always still exists, whatever the cleanup flag, because the worker returns
before the cleanup step. -/
theorem C5_amended_cleanup (env : Env) :
    ((process_pdf env).outcome = Outcome.completed →
      env.cleanupImages = true → (process_pdf env).workAreaExists = false) ∧
    ((process_pdf env).outcome = Outcome.completed →
      env.cleanupImages = false → (process_pdf env).workAreaExists = true) ∧
    ((process_pdf env).outcome = Outcome.cancelled →
      (process_pdf env).workAreaExists = true) := by
  simp only [process_pdf, afterLoop]
  split
  · exact ⟨fun h => by simp at h, fun h => by simp at h, fun h => by simp at h⟩
  · split
    · exact ⟨fun h => by simp at h, fun h => by simp at h, fun _ => rfl⟩
    · split
      · exact ⟨fun h => by simp at h, fun h => by simp at h, fun h => by simp at h⟩
      · split
        · exact ⟨fun h => by simp at h, fun h => by simp at h, fun _ => rfl⟩
        · split
          · split
            · exact ⟨fun h => by simp at h, fun h => by simp at h,
                fun h => by simp at h⟩
            · rename_i hmid hcl hrm
              exact ⟨fun _ _ => rfl,
                fun _ hf => absurd hcl (by simp [hf]),
                fun h => by simp at h⟩
          · rename_i hmid hncl
            exact ⟨fun _ ht => absurd ht hncl,
              fun _ _ => rfl,
              fun h => by simp at h⟩

/-- C5 witness: the amended theorem applied to `envA` (a completed job with
the cleanup flag set: the work area is gone). -/
theorem C5_amended_cleanup_witness :
    (process_pdf envA).outcome = Outcome.completed ∧
    envA.cleanupImages = true ∧
    (process_pdf envA).workAreaExists = false :=
  ⟨by decide, rfl, (C5_amended_cleanup envA).1 (by decide) rfl⟩

/-- C6 counterexample: in `envRmtreeFails` the deletion of the work area
fails; the exception propagates to the job-level handler, which logs it as
an Error (no Warning is emitted at all), the job never reaches Completed
and progress 100 is never emitted.  This refutes the claim that a cleanup
failure is logged as a Warning and the job still completes. -/
theorem C6_counterexample :
    envRmtreeFails.cleanupImages = true ∧
    envRmtreeFails.rmtreeFails = true ∧
    (process_pdf envRmtreeFails).outcome = Outcome.fatalError "disk error" ∧
    (Level.error, "Error: disk error") ∈ (process_pdf envRmtreeFails).logs ∧
    (∀ e ∈ (process_pdf envRmtreeFails).logs, e.1 ≠ Level.warning) ∧
    (Level.success, "OCR processing completed successfully!") ∉
      (process_pdf envRmtreeFails).logs :=
  ⟨rfl, rfl, by decide, by decide, by decide, by decide⟩

/-- Every log entry the per-page loop emits has Info or Warning severity
(never Success or Error). -/
theorem pageLoop_logs_level (env : Env) (total : Nat) (files : List String)
    (i : Nat) :
    ∀ x ∈ (pageLoop env total files i).logs,
      x.1 = Level.info ∨ x.1 = Level.warning := by
  intro x hx
  rw [pageLoop_logs] at hx
  rcases List.mem_map.mp hx with ⟨j, _, rfl⟩
  by_cases hrc : (env.ocr (files.getD j "")).returncode = 0
  · rw [if_pos hrc]
    left
    rfl
  · rw [if_neg hrc]
    right
    rfl

/-- The page-count Success log's text differs from the final completion
Success log's text (the former starts with 'G', the latter with 'O'). -/
theorem generated_string_ne_completed (t : Nat) :
    "Generated " ++ toString t ++ " images from PDF" ≠
      "OCR processing completed successfully!" := by
  intro h
  have h2 := congrArg List.head? (congrArg String.data h)
  have hL : ("Generated " ++ toString t ++ " images from PDF").data.head? =
      some 'G' := rfl
  have hR : ("OCR processing completed successfully!").data.head? =
      some 'O' := rfl
  rw [hL, hR] at h2
  simp at h2

/-- The page-count Success log's text also differs from the
"Output saved to: ..." Success log's text, for every output path. -/
theorem generated_string_ne_saved (t : Nat) (p : String) :
    "Generated " ++ toString t ++ " images from PDF" ≠
      "Output saved to: " ++ p := by
  intro h
  have h2 := congrArg List.head? (congrArg String.data h)
  have hL : ("Generated " ++ toString t ++ " images from PDF").data.head? =
      some 'G' := rfl
  have hR : ("Output saved to: " ++ p).data.head? = some 'O' := rfl
  rw [hL, hR] at h2
  simp at h2

/-- C6 (amended): when deletion of the work area fails during cleanup, the
failure is logged as an Error by the job-level exception handler, the job
ends in the fatal-error state carrying the deletion failure's message, the
work area still exists, and neither progress 100 nor either of the final
Success logs ("OCR processing completed successfully!" and
"Output saved to: ...") is emitted. -/
theorem C6_amended_rmtree_fatal (env : Env)
    (hr : env.rasterExit = 0) (hc : ∀ u, env.cancel u = false)
    (hn : image_files env ≠ [])
    (hcl : env.cleanupImages = true) (hrm : env.rmtreeFails = true) :
    (process_pdf env).outcome = Outcome.fatalError env.rmtreeMsg ∧
      (Level.error, "Error: " ++ env.rmtreeMsg) ∈ (process_pdf env).logs ∧
      (process_pdf env).workAreaExists = true ∧
      (100 : ℚ) ∉ (process_pdf env).progress ∧
      (Level.success, "OCR processing completed successfully!") ∉
        (process_pdf env).logs ∧
      (Level.success, "Output saved to: " ++ env.outputPath) ∉
        (process_pdf env).logs := by
  have hlen : (image_files env).length ≠ 0 := by
    simpa [List.length_eq_zero] using hn
  have hmid := pageLoop_not_cancelled_of_no_cancel env
    (image_files env).length (image_files env) 0 hc
  rw [process_pdf_run env hr (hc 0) hlen,
    afterLoop_rmtree_eq env _ _ hmid hcl hrm]
  refine ⟨rfl, by simp, rfl, ?_, ?_, ?_⟩
  · intro hmem
    rcases List.mem_cons.mp hmem with h | h
    · norm_num at h
    · rcases List.mem_append.mp h with h | h
      · rw [pageLoop_progress] at h
        have hb := page_progress_bounds (image_files env).length 0
          (processedCount env (image_files env).length 0) hlen
          (by have := processedCount_le env (image_files env).length 0; omega)
          100 h
        linarith [hb.2]
      · rw [List.mem_singleton] at h
        norm_num at h
  · intro hmem
    rcases List.mem_cons.mp hmem with h | h
    · simp [startLog] at h
    · rcases List.mem_cons.mp h with h | h
      · rw [generatedLog, Prod.mk.injEq] at h
        exact generated_string_ne_completed (image_files env).length h.2.symm
      · rcases List.mem_append.mp h with h | h
        · rcases pageLoop_logs_level env (image_files env).length
            (image_files env) 0 _ h with h' | h' <;> simp at h'
        · rw [List.mem_singleton, Prod.mk.injEq] at h
          simp at h
  · intro hmem
    rcases List.mem_cons.mp hmem with h | h
    · simp [startLog] at h
    · rcases List.mem_cons.mp h with h | h
      · rw [generatedLog, Prod.mk.injEq] at h
        exact generated_string_ne_saved (image_files env).length
          env.outputPath h.2.symm
      · rcases List.mem_append.mp h with h | h
        · rcases pageLoop_logs_level env (image_files env).length
            (image_files env) 0 _ h with h' | h' <;> simp at h'
        · rw [List.mem_singleton, Prod.mk.injEq] at h
          simp at h

/-- C6 witness: the amended theorem applied to `envRmtreeFails`. -/
theorem C6_amended_rmtree_fatal_witness :
    envRmtreeFails.rasterExit = 0 ∧
    (∀ u, envRmtreeFails.cancel u = false) ∧
    image_files envRmtreeFails ≠ [] ∧
    envRmtreeFails.cleanupImages = true ∧
    envRmtreeFails.rmtreeFails = true ∧
    ((process_pdf envRmtreeFails).outcome =
        Outcome.fatalError envRmtreeFails.rmtreeMsg ∧
      (Level.error, "Error: " ++ envRmtreeFails.rmtreeMsg) ∈
        (process_pdf envRmtreeFails).logs ∧
      (process_pdf envRmtreeFails).workAreaExists = true ∧
      (100 : ℚ) ∉ (process_pdf envRmtreeFails).progress ∧
      (Level.success, "OCR processing completed successfully!") ∉
        (process_pdf envRmtreeFails).logs ∧
      (Level.success, "Output saved to: " ++ envRmtreeFails.outputPath) ∉
        (process_pdf envRmtreeFails).logs) :=
  ⟨rfl, fun _ => rfl, by decide, rfl, rfl,
    C6_amended_rmtree_fatal envRmtreeFails rfl (fun _ => rfl)
      (by decide) rfl rfl⟩

/-- C4: within a single job the emitted progress values are monotonically
non-decreasing and never exceed 100; and for an uncancelled job the value
emitted at the start of page i of N (stream position i, after the value 10
at position 0) equals 20 + 70 * (i - 1) / N. -/
theorem C4_progress (env : Env) :
    List.Chain' (· ≤ ·) (process_pdf env).progress ∧
      (∀ p ∈ (process_pdf env).progress, p ≤ 100) ∧
      (env.rasterExit = 0 → (∀ u, env.cancel u = false) →
        ∀ i, 1 ≤ i → i ≤ (image_files env).length →
          (process_pdf env).progress.getD i 0 =
            20 + 70 * ((i : ℚ) - 1) / ((image_files env).length : ℚ)) := by
  by_cases hr : env.rasterExit = 0
  · cases h0 : env.cancel 0 with
    | true =>
      rw [process_pdf_cancel0 env hr h0]
      refine ⟨List.chain'_singleton 10, ?_, ?_⟩
      · intro p hp
        rw [List.mem_singleton] at hp
        rw [hp]; norm_num
      · intro _ hcf i _ _
        have hcontra := hcf 0
        rw [h0] at hcontra
        exact Bool.noConfusion hcontra
    | false =>
      by_cases hn : (image_files env).length = 0
      · have him : image_files env = [] := List.length_eq_zero.mp hn
        rw [process_pdf_no_pages env hr h0 him]
        refine ⟨List.chain'_singleton 10, ?_, ?_⟩
        · intro p hp
          rw [List.mem_singleton] at hp
          rw [hp]; norm_num
        · intro _ _ i hi1 hi2
          omega
      · rw [process_pdf_run env hr h0 hn]
        have hple := processedCount_le env (image_files env).length 0
        have hchain : List.Chain' (· ≤ ·)
            (pageLoop env (image_files env).length
              (image_files env) 0).progress := by
          rw [pageLoop_progress]
          exact page_progress_chain (image_files env).length 0 _ hn
        have hbounds : ∀ p ∈ (pageLoop env (image_files env).length
            (image_files env) 0).progress, 20 ≤ p ∧ p ≤ 90 := by
          rw [pageLoop_progress]
          exact page_progress_bounds (image_files env).length 0 _ hn (by omega)
        obtain ⟨hch, hle⟩ := afterLoop_progress_ok env
          (image_files env).length _ hchain hbounds
        refine ⟨hch, hle, ?_⟩
        intro _ hcf i hi1 hi2
        have hpc := processedCount_of_no_cancel env hcf
          (image_files env).length 0
        have hlr_len : (pageLoop env (image_files env).length
            (image_files env) 0).progress.length =
              (image_files env).length := by
          rw [pageLoop_progress, hpc]
          simp
        rw [afterLoop_progress_getD env _ _ i hi1 (by omega)]
        rw [pageLoop_progress, hpc, getD_range_map _ _ _ _ (by omega)]
        have hcast : ((0 : Nat) : ℚ) + ((i - 1 : Nat) : ℚ) = (i : ℚ) - 1 := by
          rw [Nat.cast_sub hi1]
          push_cast
          ring
        rw [hcast]
  · rw [process_pdf_raster_failed env hr]
    refine ⟨List.chain'_singleton 10, ?_, ?_⟩
    · intro p hp
      rw [List.mem_singleton] at hp
      rw [hp]; norm_num
    · intro hr' _ _ _ _
      exact absurd hr' hr

/-- C4 witness: the theorem applied to the three-page environment `envA`,
reading off the progress value at the start of page 2. -/
theorem C4_progress_witness :
    List.Chain' (· ≤ ·) (process_pdf envA).progress ∧
    (∀ p ∈ (process_pdf envA).progress, p ≤ 100) ∧
    (process_pdf envA).progress.getD 2 0 =
      20 + 70 * ((2 : ℚ) - 1) / ((image_files envA).length : ℚ) :=
  ⟨(C4_progress envA).1, (C4_progress envA).2.1,
    (C4_progress envA).2.2 rfl (fun _ => rfl) 2 (by decide) (by decide)⟩

end OCRStudio
